import Mathlib

/-!
Verification of the errsole-mysql storage backend (`lib/index.js`)

A shallow embedding, in Lean 4, of the parts of the `ErrsoleMySQL` class that
the specification's claims are about:

* the key/value config store (`getConfig`, `setConfig`) backed by a table with
  a UNIQUE `key` column;
* the TTL resolution logic of the two retention sweepers
  (`deleteExpiredLogs`, `deleteExpiredNotificationItems`), including a model of
  JavaScript's `parseInt(value, 10)`;
* the bounded-batch deletion loop of each sweeper and the per-instance
  running-flag guard;
* the in-memory log buffer (`postLogs`) and its flush protocol (`flushLogs`);
* the read paths (`getLogs`, `searchLogs`): WHERE clause construction,
  ORDER BY direction, the post-fetch reversal, and the ±24h timestamp window
  synthesis of `searchLogs`.

SQL effects are modelled explicitly: a table is a Lean list of rows, a
`SELECT ... ORDER BY ... LIMIT ?` is filter / sort / take, a
`DELETE ... LIMIT 1000` removes up to one thousand matching rows, and the
callback-style error handling of the mysql2 driver is modelled by passing the
possible errors (connection-acquire error, query error) as explicit `Option`
arguments.  Timestamps are integer milliseconds (JavaScript `Date.getTime()`).
-/

set_option maxHeartbeats 1000000

namespace ErrsoleMySQL

/-! ## Config store

`errsole_config` has columns (`id` AUTO_INCREMENT PRIMARY KEY,
`key` UNIQUE NOT NULL, `value` NOT NULL).  A `ConfigTable` is the list of rows
plus the next auto-increment id. -/

structure ConfigRow where
  id : Nat
  key : String
  value : String
deriving DecidableEq, Repr

structure ConfigTable where
  rows : List ConfigRow
  nextId : Nat
deriving DecidableEq, Repr

/-- The UNIQUE constraint on `key` that MySQL enforces on the config table:
no two rows share a key. -/
def ConfigWf (t : ConfigTable) : Prop :=
  t.rows.Pairwise (fun r s => r.key ≠ s.key)

/-- Model of `getConfig(key)` (lib lines 230-238): `SELECT * FROM config WHERE key = ?`
and resolve with `{item: results[0]}`; the item is absent when no row
matches. -/
def getConfig (t : ConfigTable) (key : String) : Option ConfigRow :=
  (t.rows.filter (fun r => r.key == key)).head?

/-- The write half of `setConfig(key, value)` (lib line 251):
`INSERT INTO config (key, value) VALUES (?, ?) ON DUPLICATE KEY UPDATE
value = VALUES(value)` — insert a fresh row, or on key conflict overwrite the
value of the existing row. -/
def upsertConfig (t : ConfigTable) (key value : String) : ConfigTable :=
  if t.rows.any (fun r => r.key == key) then
    { t with rows := t.rows.map (fun r => if r.key == key then { r with value := value } else r) }
  else
    { rows := t.rows ++ [⟨t.nextId, key, value⟩], nextId := t.nextId + 1 }

/-- Model of `setConfig(key, value)` (lib lines 250-259): perform the upsert, then
re-read the stored entry via `getConfig` and resolve with it. -/
def setConfig (t : ConfigTable) (key value : String) : ConfigTable × Option ConfigRow :=
  let t' := upsertConfig t key value
  (t', getConfig t' key)

/-! ## JavaScript `parseInt(string, 10)`

Used by both sweepers on the stored `logsTTL` value (lib lines 577 and 724).
`parseInt` skips leading whitespace, accepts an optional sign, then reads the
longest prefix of decimal digits; it returns `NaN` (here `none`) only when no
digit is found, and otherwise ignores everything after the digits. -/

/-- Value of a list of decimal digit characters. -/
def parseDigits (cs : List Char) : Nat :=
  cs.foldl (fun a c => a * 10 + (c.toNat - 48)) 0

/-- JavaScript `parseInt(s, 10)`; `none` models `NaN`. -/
def parseIntJS (s : String) : Option Int :=
  let cs := s.data.dropWhile (fun c => c.isWhitespace)
  let signed : Bool × List Char :=
    match cs with
    | c :: rest => if c = '-' then (true, rest) else if c = '+' then (false, rest) else (false, cs)
    | [] => (false, cs)
  let ds := signed.2.takeWhile (fun c => c.isDigit)
  if ds.isEmpty then none
  else if signed.1 then some (-(parseDigits ds : Int)) else some (parseDigits ds : Int)

/-! ## TTL resolution of the two sweepers -/

/-- The constant `DEFAULT_LOGS_TTL = 30 * 24 * 60 * 60 * 1000` (lib line 571). -/
def DEFAULT_LOGS_TTL : Int := 30 * 24 * 60 * 60 * 1000

/-- The constant `DEFAULT_NOTIFICATIONS_TTL = 30 * 24 * 60 * 60 * 1000` (lib line 718). -/
def DEFAULT_NOTIFICATIONS_TTL : Int := 30 * 24 * 60 * 60 * 1000

/-- TTL resolution of `deleteExpiredLogs` (lib lines 574-579): read the
`logsTTL` config entry; if present, `parseInt` its value and keep it unless
the parse is `NaN`; otherwise use the default. -/
def deleteExpiredLogsTTL (cfg : ConfigTable) : Int :=
  match getConfig cfg "logsTTL" with
  | none => DEFAULT_LOGS_TTL
  | some item =>
      match parseIntJS item.value with
      | none => DEFAULT_LOGS_TTL
      | some n => n

/-- TTL resolution of `deleteExpiredNotificationItems` (lib lines 721-726):
it reads the same `logsTTL` config key, with the same parse-or-default
logic. -/
def deleteExpiredNotificationItemsTTL (cfg : ConfigTable) : Int :=
  match getConfig cfg "logsTTL" with
  | none => DEFAULT_NOTIFICATIONS_TTL
  | some item =>
      match parseIntJS item.value with
      | none => DEFAULT_NOTIFICATIONS_TTL
      | some n => n

/-- A string that is a (decimal) non-negative integer: nonempty and all
digits.  This is the spec's notion of "a valid non-negative integer" used to
state claim C5; it is deliberately taken from the spec's words, not from the
code, so that the two can be compared. -/
def isNonNegIntStr (s : String) : Bool :=
  !s.data.isEmpty && s.data.all (fun c => c.isDigit)

/-- TTL resolution as the spec words it ("if absent or not a valid
non-negative integer, use the default"); to be compared against
`deleteExpiredLogsTTL`, which is translated from the code. -/
def deleteExpiredLogsTTLSpec (cfg : ConfigTable) : Int :=
  match getConfig cfg "logsTTL" with
  | none => DEFAULT_LOGS_TTL
  | some item =>
      if isNonNegIntStr item.value then (parseDigits item.value.data : Int)
      else DEFAULT_LOGS_TTL

/-! ## Retention sweepers

Each sweeper (lib lines 566-601 for logs, 713-748 for notifications) is
guarded by a per-instance boolean running-flag, resolves a TTL, computes the
expiration threshold, then runs a do-while loop:

```
do {
  deletedRowCount = await DELETE ... WHERE timestamp < ? LIMIT 1000;
  await sleep(10000);
} while (deletedRowCount > 0);
```

The loop is driven only by the number of rows still matching the threshold,
so it is modelled over that count; each `DELETE ... LIMIT 1000` statement
removes `min(remaining, 1000)` rows.  The statements issued by one sweep are
recorded as a trace of events. -/

/-- One observable step of the sweep loop: a bounded `DELETE` statement
reporting its affected-row count, or a `setTimeout` delay in milliseconds. -/
inductive BatchEvent where
  | delete (rows : Nat)
  | wait (ms : Nat)
deriving DecidableEq, Repr

/-- The affected-row counts of the successive non-empty `DELETE` batches
when `n` rows match the threshold: `min n 1000` rows per statement until the
table is clear. -/
def posBatches (n : Nat) : List Nat :=
  if h : n = 0 then [] else min n 1000 :: posBatches (n - min n 1000)
termination_by n
decreasing_by omega

/-- The event trace of the sweep's do-while loop (lib lines 583-595 and
730-742) on a table with `n` rows older than the threshold: issue a bounded
delete, wait 10 seconds, repeat while the delete affected at least one
row. -/
def deleteLoop (n : Nat) : List BatchEvent :=
  let d := min n 1000
  if h : d > 0 then .delete d :: .wait 10000 :: deleteLoop (n - d)
  else [.delete d, .wait 10000]
termination_by n
decreasing_by simp only [d] at h; omega

/-- Outcome of one invocation of a sweeper. -/
structure SweepRun where
  /-- The invocation observed the running-flag set and returned immediately. -/
  skipped : Bool
  /-- Value of the running-flag when the invocation returns. -/
  runningAfter : Bool
  /-- Whether the invocation issued any query to storage. -/
  touchedStorage : Bool
  /-- The TTL the sweep resolved (0 when it never got that far). -/
  ttl : Int
  /-- The delete/wait statements the sweep issued. -/
  events : List BatchEvent
deriving DecidableEq, Repr

/-- Model of `deleteExpiredLogs()` (lib lines 566-601).  `running` is the
`deleteExpiredLogsRunning` flag at entry; `bodyFails` injects a query error
into the try-block (caught by `catch`, with the flag cleared in `finally`);
`cfg` is the config table read for the TTL; `logTimestamps` are the
`timestamp` values (ms) of the rows of the logs table; `now` is
`Date.now()`. -/
def deleteExpiredLogs (running : Bool) (bodyFails : Bool) (cfg : ConfigTable)
    (now : Int) (logTimestamps : List Int) : SweepRun :=
  if running then
    { skipped := true, runningAfter := running, touchedStorage := false, ttl := 0, events := [] }
  else if bodyFails then
    { skipped := false, runningAfter := false, touchedStorage := true, ttl := 0, events := [] }
  else
    let ttl := deleteExpiredLogsTTL cfg
    let expirationTime := ((now - ttl).fdiv 1000) * 1000
    let expired := (logTimestamps.filter (fun ts => ts < expirationTime)).length
    { skipped := false, runningAfter := false, touchedStorage := true, ttl := ttl,
      events := deleteLoop expired }

/-- Model of `deleteExpiredNotificationItems()` (lib lines 713-748), identical in
shape but guarded by its own `deleteExpiredNotificationItemsRunning` flag and
sweeping the notifications table by `created_at`. -/
def deleteExpiredNotificationItems (running : Bool) (bodyFails : Bool) (cfg : ConfigTable)
    (now : Int) (createdAts : List Int) : SweepRun :=
  if running then
    { skipped := true, runningAfter := running, touchedStorage := false, ttl := 0, events := [] }
  else if bodyFails then
    { skipped := false, runningAfter := false, touchedStorage := true, ttl := 0, events := [] }
  else
    let ttl := deleteExpiredNotificationItemsTTL cfg
    let expirationTime := ((now - ttl).fdiv 1000) * 1000
    let expired := (createdAts.filter (fun ts => ts < expirationTime)).length
    { skipped := false, runningAfter := false, touchedStorage := true, ttl := ttl,
      events := deleteLoop expired }

/-! ## Log buffer and flush protocol

`this.pendingLogs` is an in-memory array; `this.batchSize = 100` (lib line
73).  `postLogs` (lib lines 287-293) appends synchronously and, when the
buffer has reached the batch size, calls `flushLogs()` without awaiting it.
`flushLogs` (lib lines 303-334) drains the whole buffer with
`splice(0, length)`, returns immediately when the drained list is empty,
otherwise acquires a pooled connection (rejecting on acquire failure) and
issues one multi-row `INSERT IGNORE`.  Inside the insert callback the code
re-tests the *outer* `err` variable — the connection-acquire error, which is
`null` on that path — so the insert's own error is never consulted. -/

structure LogEntry where
  timestamp : Int
  hostname : String
  pid : Nat
  source : String
  level : String
  message : String
  meta : String
  errsole_id : Nat
deriving DecidableEq, Repr

/-- The constant `this.batchSize = 100` (lib line 73). -/
def batchSize : Nat := 100

/-- Result of one `postLogs` call. -/
structure PostOutcome where
  /-- Contents of `this.pendingLogs` after the call. -/
  pending : List LogEntry
  /-- Whether the call invoked `flushLogs()` (fire-and-forget). -/
  flushTriggered : Bool
deriving DecidableEq, Repr

/-- Model of `postLogs(logEntries)` (lib lines 287-293): push all entries onto the
pending buffer, then trigger a flush (not awaited) exactly when the buffer
length has reached `batchSize`.  The call itself performs no I/O and returns
`{}`. -/
def postLogs (pending : List LogEntry) (logEntries : List LogEntry) : PostOutcome :=
  let pending' := pending ++ logEntries
  { pending := pending', flushTriggered := pending'.length ≥ batchSize }

/-- How one `flushLogs` call settles. -/
inductive FlushResult where
  /-- The promise resolved with `{}`. -/
  | resolved
  /-- The promise rejected with the given error. -/
  | rejected (e : String)
deriving DecidableEq, Repr

/-- Outcome of one `flushLogs` call. -/
structure FlushOutcome where
  /-- Contents of `this.pendingLogs` right after the `splice` drain. -/
  pending : List LogEntry
  /-- The local `logsToPost` list drained out of the buffer. -/
  drained : List LogEntry
  /-- Whether the batched `INSERT` statement was issued. -/
  insertIssued : Bool
  result : FlushResult
deriving DecidableEq, Repr

/-- Model of `flushLogs()` (lib lines 303-334).  `acquireErr` is the error (if any)
with which `pool.getConnection` calls back; `insertErr` is the error (if any)
with which the batched `INSERT` calls back.  The buffer is drained in full by
`splice(0, length)` before any I/O; an empty drain resolves at once with no
write; an acquire failure rejects, the drained entries staying removed; and
the insert callback tests the outer (null) acquire error, so it resolves with
`{}` whatever `insertErr` is. -/
def flushLogs (pending : List LogEntry) (acquireErr : Option String)
    (insertErr : Option String) : FlushOutcome :=
  let logsToPost := pending
  let pending' : List LogEntry := []
  if logsToPost.length = 0 then
    { pending := pending', drained := logsToPost, insertIssued := false, result := .resolved }
  else
    match acquireErr with
    | some e =>
        { pending := pending', drained := logsToPost, insertIssued := false,
          result := .rejected e }
    | none =>
        match insertErr with
        | _ =>
            { pending := pending', drained := logsToPost, insertIssued := true,
              result := .resolved }

/-- An interleaving of buffer operations: `postLogs` appends and `flushLogs`
drain points.  Posts that happen while a flush's I/O is in flight are simply
posts ordered after that flush's drain. -/
inductive BufEvent where
  | post (entries : List LogEntry)
  | flush (acquireErr : Option String) (insertErr : Option String)
deriving DecidableEq, Repr

/-- Buffer state threaded through a trace: the shared pending buffer and the
slices drained so far, in order. -/
structure BufState where
  pending : List LogEntry
  slices : List (List LogEntry)
deriving DecidableEq, Repr

/-- One step of the buffer trace semantics. -/
def bufStep (st : BufState) : BufEvent → BufState
  | .post es => { st with pending := (postLogs st.pending es).pending }
  | .flush aq ins =>
      let out := flushLogs st.pending aq ins
      { pending := out.pending, slices := st.slices ++ [out.drained] }

/-- Run a trace of buffer events from a starting state. -/
def runBuf (st : BufState) : List BufEvent → BufState
  | [] => st
  | e :: es => runBuf (bufStep st e) es

/-- All entries posted by a trace, in submission order. -/
def postedOf (evs : List BufEvent) : List LogEntry :=
  evs.flatMap fun e =>
    match e with
    | .post es => es
    | .flush _ _ => []

/-! ## Query engine: `getLogs` and `searchLogs`

A logs-table row and the filter object of the two read paths.  JavaScript
truthiness matters: numeric filter fields (`lt_id`, `gt_id`, `errsole_id`)
are tested with `if (filters.x)`, which is false for `0`; `Date` and array
values are objects and always truthy, so for them presence is what counts.
The `SELECT ... WHERE ... ORDER BY ... LIMIT ?` round-trip is modelled as
filter / sort / take over the list of rows; when the built WHERE clause is
the invalid SQL fragment `()` (possible when `level_json` is an empty array
and `errsole_id` is falsy), the query rejects with a parse error, modelled by
`Except.error`. -/

structure LogRow where
  id : Nat
  hostname : String
  pid : Nat
  source : String
  level : String
  message : String
  timestamp : Int
  errsole_id : Nat
deriving DecidableEq, Repr

structure LogFilters where
  lt_id : Option Nat := none
  gt_id : Option Nat := none
  errsole_id : Option Nat := none
  lte_timestamp : Option Int := none
  gte_timestamp : Option Int := none
  hostnames : Option (List String) := none
  level_json : Option (List (String × String)) := none
  limit : Option Nat := none
deriving DecidableEq, Repr

/-- JavaScript truthiness of an optional numeric field: present and
nonzero. -/
def truthyNat (o : Option Nat) : Bool :=
  match o with
  | some n => n != 0
  | none => false

/-- The assignment `filters.limit = filters.limit || DEFAULT_LOGS_LIMIT` (lib lines 370-371
and 450-451): absent or `0` becomes `100`. -/
def effectiveLimit (o : Option Nat) : Nat :=
  match o with
  | some n => if n = 0 then 100 else n
  | none => 100

/-- The four `ORDER BY` clauses the two read paths can produce. -/
inductive OrderBy where
  | idDesc
  | idAsc
  | tsDescIdDesc
  | tsAscIdAsc
deriving DecidableEq, Repr

/-- The row ordering of each `ORDER BY` clause, as a total preorder. -/
def ordRel : OrderBy → LogRow → LogRow → Prop
  | .idDesc => fun a b => b.id ≤ a.id
  | .idAsc => fun a b => a.id ≤ b.id
  | .tsDescIdDesc => fun a b => b.timestamp < a.timestamp ∨ (b.timestamp = a.timestamp ∧ b.id ≤ a.id)
  | .tsAscIdAsc => fun a b => a.timestamp < b.timestamp ∨ (a.timestamp = b.timestamp ∧ a.id ≤ b.id)

instance (o : OrderBy) : DecidableRel (ordRel o) := fun a b =>
  match o with
  | .idDesc => inferInstanceAs (Decidable (b.id ≤ a.id))
  | .idAsc => inferInstanceAs (Decidable (a.id ≤ b.id))
  | .tsDescIdDesc =>
      inferInstanceAs (Decidable (b.timestamp < a.timestamp
        ∨ (b.timestamp = a.timestamp ∧ b.id ≤ a.id)))
  | .tsAscIdAsc =>
      inferInstanceAs (Decidable (a.timestamp < b.timestamp
        ∨ (a.timestamp = b.timestamp ∧ a.id ≤ b.id)))

instance (o : OrderBy) : IsTotal LogRow (ordRel o) := by
  cases o <;> exact ⟨by intro a b; simp only [ordRel]; omega⟩

instance (o : OrderBy) : IsTrans LogRow (ordRel o) := by
  cases o <;> exact ⟨by intro a b c; simp only [ordRel]; omega⟩

/-- The `hostname IN (?)` clause: active when `filters.hostnames` is a nonempty
array (lib lines 379-382 and 464-467). -/
def hostnamesPred (f : LogFilters) (r : LogRow) : Bool :=
  match f.hostnames with
  | some hs => if hs.length > 0 then hs.contains r.hostname else true
  | none => true

/-- Whether the `level_json`/`errsole_id` OR-block is entered:
`filters.level_json || filters.errsole_id` — an array is always truthy, a
number only when nonzero (lib lines 383 and 468). -/
def levelJsonBlockActive (f : LogFilters) : Bool :=
  f.level_json.isSome || truthyNat f.errsole_id

/-- Whether the OR-block, once entered, contributes no condition at all, so
that the code pushes the invalid SQL fragment `()` and the query rejects with
a parse error. -/
def levelJsonBlockEmpty (f : LogFilters) : Bool :=
  (match f.level_json with
   | some pairs => pairs.isEmpty
   | none => true) && !truthyNat f.errsole_id

/-- The OR-block predicate: OR over the `(source = ? AND level = ?)` pairs of
`level_json`, OR `errsole_id = ?` when that filter is truthy (lib lines
384-399 and 469-485). -/
def levelJsonPred (f : LogFilters) (r : LogRow) : Bool :=
  (match f.level_json with
   | some pairs => pairs.any (fun p => r.source == p.1 && r.level == p.2)
   | none => false)
  || (match f.errsole_id with
      | some v => v != 0 && r.errsole_id == v
      | none => false)

/-- The id/timestamp bound clauses of `getLogs` (lib lines 401-424): an
`else if` chain, so `lt_id` wins over `gt_id`, and both win over the
timestamp bounds. -/
def getLogsBoundPred (f : LogFilters) (r : LogRow) : Bool :=
  if truthyNat f.lt_id then r.id < f.lt_id.getD 0
  else if truthyNat f.gt_id then r.id > f.gt_id.getD 0
  else if f.lte_timestamp.isSome || f.gte_timestamp.isSome then
    (match f.lte_timestamp with
     | some t => r.timestamp ≤ t
     | none => true)
    && (match f.gte_timestamp with
        | some t => r.timestamp ≥ t
        | none => true)
  else true

/-- The `ORDER BY` clause and `shouldReverse` flag of `getLogs` (lib lines
375-376 and 401-424): defaults `id DESC`/reverse; the same `else if` chain
as the bounds; inside the timestamp branch `lte` sets descending and `gte`
then overrides to ascending. -/
def getLogsOrder (f : LogFilters) : OrderBy × Bool :=
  if truthyNat f.lt_id then (.idDesc, true)
  else if truthyNat f.gt_id then (.idAsc, false)
  else if f.lte_timestamp.isSome || f.gte_timestamp.isSome then
    if f.gte_timestamp.isSome then (.tsAscIdAsc, false) else (.tsDescIdDesc, true)
  else (.idDesc, true)

/-- The full WHERE predicate of `getLogs`. -/
def getLogsPred (f : LogFilters) (r : LogRow) : Bool :=
  hostnamesPred f r
  && (if levelJsonBlockActive f then levelJsonPred f r else true)
  && getLogsBoundPred f r

/-- Model of `getLogs(filters)` (lib lines 369-437): build the WHERE clauses, fetch
with `ORDER BY ... LIMIT ?`, and reverse the page before resolving when the
fetch direction was descending.  Rejects with a parse error on the invalid
`()` clause. -/
def getLogs (table : List LogRow) (f : LogFilters) : Except String (List LogRow) :=
  if levelJsonBlockActive f && levelJsonBlockEmpty f then
    .error "ER_PARSE_ERROR"
  else
    let results := ((table.filter (getLogsPred f)).insertionSort
      (ordRel (getLogsOrder f).1)).take (effectiveLimit f.limit)
    .ok (if (getLogsOrder f).2 then results.reverse else results)

/-- The id/timestamp bound clauses of `searchLogs` (lib lines 486-525):
independent `if`s, so several bound clauses can be pushed together, plus the
synthesized missing timestamp bound (±24 hours) when exactly one of the pair
is given. -/
def searchLogsBoundPred (f : LogFilters) (r : LogRow) : Bool :=
  (if truthyNat f.lt_id then r.id < f.lt_id.getD 0 else true)
  && (if truthyNat f.gt_id then r.id > f.gt_id.getD 0 else true)
  && (match f.lte_timestamp with
      | some t => r.timestamp ≤ t
      | none => true)
  && (match f.gte_timestamp with
      | some t => r.timestamp ≥ t
      | none => true)
  && (match f.lte_timestamp, f.gte_timestamp with
      | some t, none => r.timestamp ≥ t - 24 * 60 * 60 * 1000
      | _, _ => true)
  && (match f.lte_timestamp, f.gte_timestamp with
      | none, some t => r.timestamp ≤ t + 24 * 60 * 60 * 1000
      | _, _ => true)

/-- The `ORDER BY`/`shouldReverse` of `searchLogs`: each `if` in turn
overwrites the previous assignment (lib lines 455-456 and 486-510). -/
def searchLogsOrder (f : LogFilters) : OrderBy × Bool :=
  let s : OrderBy × Bool := (.idDesc, true)
  let s := if truthyNat f.lt_id then ((.idDesc : OrderBy), true) else s
  let s := if truthyNat f.gt_id then ((.idAsc : OrderBy), false) else s
  let s := if f.lte_timestamp.isSome then ((.tsDescIdDesc : OrderBy), true) else s
  let s := if f.gte_timestamp.isSome then ((.tsAscIdAsc : OrderBy), false) else s
  s

/-- The effective filter object `searchLogs` resolves with: `limit`
defaulted, and the missing timestamp bound of a lone pair synthesized at
exactly ±24 hours (lib lines 451, 511-524). -/
def searchLogsEffectiveFilters (f : LogFilters) : LogFilters :=
  let f := { f with limit := some (effectiveLimit f.limit) }
  match f.lte_timestamp, f.gte_timestamp with
  | some t, none => { f with gte_timestamp := some (t - 24 * 60 * 60 * 1000) }
  | none, some t => { f with lte_timestamp := some (t + 24 * 60 * 60 * 1000) }
  | _, _ => f

/-- The full WHERE predicate of `searchLogs`.  `matchFn terms message`
stands for the storage engine's
`MATCH(message) AGAINST ('+\x7bterm\x7d...' IN BOOLEAN MODE)` full-text
verdict, which is external to this module; the clause is present only when
`searchTerms` is nonempty (lib lines 458-461). -/
def searchLogsPred (matchFn : List String → String → Bool) (terms : List String)
    (f : LogFilters) (r : LogRow) : Bool :=
  (if terms.length > 0 then matchFn terms r.message else true)
  && hostnamesPred f r
  && (if levelJsonBlockActive f then levelJsonPred f r else true)
  && searchLogsBoundPred f r

/-- Model of `searchLogs(searchTerms, filters)` (lib lines 449-538): like `getLogs`
but with the full-text clause, independent bound `if`s, the ±24h window
synthesis, and resolving with both the page and the effective (mutated)
filter object. -/
def searchLogs (matchFn : List String → String → Bool) (terms : List String)
    (table : List LogRow) (f : LogFilters) : Except String (List LogRow × LogFilters) :=
  if levelJsonBlockActive f && levelJsonBlockEmpty f then
    .error "ER_PARSE_ERROR"
  else
    let results := ((table.filter (searchLogsPred matchFn terms f)).insertionSort
      (ordRel (searchLogsOrder f).1)).take (effectiveLimit f.limit)
    .ok (if (searchLogsOrder f).2 then results.reverse else results,
      searchLogsEffectiveFilters f)

/-! ## Supporting lemmas -/

/-- The function `flushLogs` always drains the whole buffer into the local list. -/
theorem flushLogs_drained (p : List LogEntry) (aq ins : Option String) :
    (flushLogs p aq ins).drained = p := by
  unfold flushLogs
  cases p with
  | nil => rfl
  | cons l ls => cases aq <;> rfl

/-- The function `flushLogs` always leaves the shared buffer reset. -/
theorem flushLogs_pending (p : List LogEntry) (aq ins : Option String) :
    (flushLogs p aq ins).pending = [] := by
  unfold flushLogs
  cases p with
  | nil => rfl
  | cons l ls => cases aq <;> rfl

/-- The buffer-trace invariant: the drained slices plus whatever is still
pending are exactly the entries posted so far, in order. -/
theorem runBuf_partition (evs : List BufEvent) :
    ∀ st : BufState,
      (runBuf st evs).slices.flatten ++ (runBuf st evs).pending
        = st.slices.flatten ++ st.pending ++ postedOf evs := by
  induction evs with
  | nil => intro st; simp [runBuf, postedOf]
  | cons e es ih =>
    intro st
    cases e with
    | post entries =>
      rw [runBuf, ih]
      simp [bufStep, postLogs, postedOf, List.flatMap_cons]
    | flush aq ins =>
      rw [runBuf, ih]
      simp [bufStep, postedOf, List.flatMap_cons, flushLogs_drained, flushLogs_pending,
        List.flatten_append]

/-! ## The claims -/

/-- C1: every `flushLogs` invocation drains the entire pending buffer into a
local list and resets the shared buffer, independently of how the write then
goes, so each buffered entry lands in exactly one drained slice and entries
appended during an in-flight flush stay in the buffer for the next flush; an
empty drain is a no-op resolving immediately with no insert issued; and on
connection-acquire failure the call rejects with that error, no insert is
issued, and the drained entries stay removed from the buffer. -/
theorem C1_flushLogs_drain_protocol :
    (∀ (p : List LogEntry) (aq ins : Option String),
        (flushLogs p aq ins).drained = p ∧ (flushLogs p aq ins).pending = [])
    ∧ (∀ aq ins : Option String,
        (flushLogs [] aq ins).result = .resolved
        ∧ (flushLogs [] aq ins).insertIssued = false)
    ∧ (∀ (l : LogEntry) (ls : List LogEntry) (e : String) (ins : Option String),
        (flushLogs (l :: ls) (some e) ins).result = .rejected e
        ∧ (flushLogs (l :: ls) (some e) ins).insertIssued = false
        ∧ (flushLogs (l :: ls) (some e) ins).pending = [])
    ∧ (∀ evs : List BufEvent,
        (runBuf ⟨[], []⟩ evs).slices.flatten ++ (runBuf ⟨[], []⟩ evs).pending
          = postedOf evs) := by
  refine ⟨?_, ?_, ?_, ?_⟩
  · exact fun p aq ins => ⟨flushLogs_drained p aq ins, flushLogs_pending p aq ins⟩
  · intro aq ins; exact ⟨rfl, rfl⟩
  · intro l ls e ins; exact ⟨rfl, rfl, rfl⟩
  · intro evs
    have h := runBuf_partition evs ⟨[], []⟩
    simpa using h

/-- C2: each sweeper's per-instance running-flag makes a concurrent
invocation a silent no-op — it reports skipped, touches no storage and issues
no statement — while an invocation that does start leaves the flag cleared
whether its body succeeded or failed, for both `deleteExpiredLogs` and
`deleteExpiredNotificationItems`. -/
theorem C2_sweeper_running_flag :
    ∀ (cfg : ConfigTable) (now : Int) (ts : List Int) (bodyFails : Bool),
      (deleteExpiredLogs true bodyFails cfg now ts).skipped = true
      ∧ (deleteExpiredLogs true bodyFails cfg now ts).touchedStorage = false
      ∧ (deleteExpiredLogs true bodyFails cfg now ts).events = []
      ∧ (deleteExpiredLogs false bodyFails cfg now ts).skipped = false
      ∧ (deleteExpiredLogs false bodyFails cfg now ts).runningAfter = false
      ∧ (deleteExpiredNotificationItems true bodyFails cfg now ts).skipped = true
      ∧ (deleteExpiredNotificationItems true bodyFails cfg now ts).touchedStorage = false
      ∧ (deleteExpiredNotificationItems true bodyFails cfg now ts).events = []
      ∧ (deleteExpiredNotificationItems false bodyFails cfg now ts).skipped = false
      ∧ (deleteExpiredNotificationItems false bodyFails cfg now ts).runningAfter = false := by
  intro cfg now ts bodyFails
  cases bodyFails <;>
    simp [deleteExpiredLogs, deleteExpiredNotificationItems]

/-- C3: `postLogs` appends all entries to the pending buffer in submission
order, performs no I/O itself (it is a pure state update in this model), and
triggers a (non-awaited) flush exactly when the buffer's length after
appending has reached the batch size of 100. -/
theorem C3_postLogs_append_and_trigger :
    ∀ (pending logEntries : List LogEntry),
      (postLogs pending logEntries).pending = pending ++ logEntries
      ∧ ((postLogs pending logEntries).flushTriggered
          = decide (pending.length + logEntries.length ≥ 100)) := by
  intro pending logEntries
  refine ⟨rfl, ?_⟩
  simp [postLogs, batchSize]

/-- C9: when the connection is acquired and the drained batch is nonempty,
`flushLogs` issues the insert and resolves with `{}` no matter what error the
insert statement itself reports, because the insert callback re-tests the
(null) connection-acquire error rather than its own. -/
theorem C9_flushLogs_ignores_insert_error :
    ∀ (l : LogEntry) (ls : List LogEntry) (insertErr : Option String),
      (flushLogs (l :: ls) none insertErr).result = .resolved
      ∧ (flushLogs (l :: ls) none insertErr).insertIssued = true := by
  intro l ls insertErr
  exact ⟨rfl, rfl⟩

/-- Each non-final batch deletes between 1 and 1000 rows. -/
theorem posBatches_mem (n : Nat) : ∀ k ∈ posBatches n, 0 < k ∧ k ≤ 1000 := by
  induction n using Nat.strong_induction_on with
  | _ n ih =>
    rw [posBatches]
    by_cases h : n = 0
    · simp [h]
    · simp only [h, dite_false, List.mem_cons]
      intro k hk
      rcases hk with hk | hk
      · subst hk
        exact ⟨by omega, Nat.min_le_right _ _⟩
      · exact ih (n - min n 1000) (by omega) k hk

/-- The non-final batches delete every expired row exactly once. -/
theorem posBatches_sum (n : Nat) : (posBatches n).sum = n := by
  induction n using Nat.strong_induction_on with
  | _ n ih =>
    rw [posBatches]
    by_cases h : n = 0
    · simp [h]
    · simp only [h, dite_false, List.sum_cons]
      rw [ih (n - min n 1000) (by omega)]
      omega

/-- The sweep's do-while trace is exactly the non-final batches, each
followed by the 10-second wait, then the final zero-row batch that ends the
loop. -/
theorem deleteLoop_eq_batches (n : Nat) :
    deleteLoop n
      = ((posBatches n).flatMap fun k => [.delete k, .wait 10000])
        ++ [.delete 0, .wait 10000] := by
  induction n using Nat.strong_induction_on with
  | _ n ih =>
    rw [deleteLoop, posBatches]
    by_cases h : n = 0
    · simp [h]
    · have hmin : min n 1000 > 0 := by omega
      simp only [h, dite_false, List.flatMap_cons, hmin, dite_true]
      rw [ih (n - min n 1000) (by omega)]
      simp

/-- C4: every retention sweep's delete loop issues statements bounded to
1000 rows each; every batch that affected rows is followed by the fixed
10-second wait and then the next statement; the first statement affecting
zero rows is the last delete issued; and a table with finitely many expired
rows is fully cleared — the positive batches sum to the whole expired count.
The trace of a non-skipped, non-failing `deleteExpiredLogs` run is exactly
this loop over the rows older than its threshold. -/
theorem C4_retention_loop_terminates :
    (∀ n : Nat,
      deleteLoop n
        = ((posBatches n).flatMap fun k => [.delete k, .wait 10000])
          ++ [.delete 0, .wait 10000])
    ∧ (∀ n : Nat, ∀ k ∈ posBatches n, 0 < k ∧ k ≤ 1000)
    ∧ (∀ n : Nat, (posBatches n).sum = n)
    ∧ (∀ (cfg : ConfigTable) (now : Int) (logTimestamps : List Int),
        (deleteExpiredLogs false false cfg now logTimestamps).events
          = deleteLoop ((logTimestamps.filter
              (fun ts => ts < ((now - deleteExpiredLogsTTL cfg).fdiv 1000) * 1000)).length))
    ∧ (∀ (cfg : ConfigTable) (now : Int) (createdAts : List Int),
        (deleteExpiredNotificationItems false false cfg now createdAts).events
          = deleteLoop ((createdAts.filter
              (fun ts => ts < ((now - deleteExpiredNotificationItemsTTL cfg).fdiv 1000) * 1000)).length)) := by
  refine ⟨deleteLoop_eq_batches, posBatches_mem, posBatches_sum, ?_, ?_⟩
  · intro cfg now ts; rfl
  · intro cfg now ts; rfl

/-- The overwrite of an upsert does not change any row's key. -/
theorem upsert_map_key (k v : String) (r : ConfigRow) :
    ((if r.key == k then { r with value := v } else r) : ConfigRow).key = r.key := by
  by_cases h : r.key == k <;> simp [h]

/-- When some row matches the key, the mapped (overwritten) list's first
match holds the key and the written value. -/
theorem upsert_head_of_any (k v : String) (rows : List ConfigRow)
    (hany : rows.any (fun r => r.key == k) = true) :
    ∃ r, ((rows.map (fun s => if s.key == k then { s with value := v } else s)).filter
        (fun s => s.key == k)).head? = some r ∧ r.key = k ∧ r.value = v := by
  induction rows with
  | nil => simp at hany
  | cons x xs ih =>
    rw [List.map_cons, List.filter_cons]
    by_cases hx : (x.key == k) = true
    · have hfx : (if (x.key == k) = true then { x with value := v } else x)
          = { x with value := v } := if_pos hx
      rw [hfx, if_pos (show (({ x with value := v } : ConfigRow).key == k) = true from hx),
        List.head?_cons]
      exact ⟨{ x with value := v }, rfl, eq_of_beq hx, rfl⟩
    · have hfx : (if (x.key == k) = true then { x with value := v } else x) = x := if_neg hx
      rw [hfx, if_neg (show ¬(x.key == k) = true from hx)]
      apply ih
      rcases List.any_eq_true.mp hany with ⟨a, ha, hak⟩
      rcases List.mem_cons.mp ha with rfl | ha'
      · exact absurd hak hx
      · exact List.any_eq_true.mpr ⟨a, ha', hak⟩

/-- When no row matches the key, nothing passes the key filter. -/
theorem filter_key_nil (k : String) (rows : List ConfigRow)
    (hany : ¬rows.any (fun r => r.key == k) = true) :
    rows.filter (fun r => r.key == k) = [] := by
  rw [List.filter_eq_nil_iff]
  intro a ha
  simp only [List.any_eq_true, not_exists, not_and] at hany
  exact fun hak => hany a ha hak

/-- After an upsert of `(k, v)`, looking `k` up finds a row holding exactly
key `k` and value `v`. -/
theorem getConfig_upsert (t : ConfigTable) (k v : String) :
    ∃ r, getConfig (upsertConfig t k v) k = some r ∧ r.key = k ∧ r.value = v := by
  unfold upsertConfig getConfig
  by_cases hany : t.rows.any (fun r => r.key == k) = true
  · rw [if_pos hany]
    exact upsert_head_of_any k v t.rows hany
  · rw [if_neg hany]
    refine ⟨⟨t.nextId, k, v⟩, ?_, rfl, rfl⟩
    rw [List.filter_append, filter_key_nil k t.rows hany, List.nil_append, List.filter_cons,
      if_pos (show ((⟨t.nextId, k, v⟩ : ConfigRow).key == k) = true by simp), List.head?_cons]

/-- Under the UNIQUE key constraint, at most one row matches a key. -/
theorem countKey_le_one (rows : List ConfigRow) (k : String)
    (hw : rows.Pairwise (fun r s => r.key ≠ s.key)) :
    (rows.filter (fun r => r.key == k)).length ≤ 1 := by
  induction rows with
  | nil => simp
  | cons x xs ih =>
    rw [List.pairwise_cons] at hw
    by_cases hx : x.key == k
    · have hnil : xs.filter (fun r => r.key == k) = [] := by
        rw [List.filter_eq_nil_iff]
        intro a ha hak
        exact hw.1 a ha ((eq_of_beq hx).trans (eq_of_beq hak).symm)
      simp [List.filter_cons, hx, hnil]
    · simpa [List.filter_cons, hx] using ih hw.2

/-- The upsert leaves exactly one row for the written key when the
UNIQUE key constraint held before. -/
theorem countKey_upsert (t : ConfigTable) (k v : String) (hw : ConfigWf t) :
    ((upsertConfig t k v).rows.filter (fun r => r.key == k)).length = 1 := by
  unfold upsertConfig
  by_cases hany : t.rows.any (fun r => r.key == k) = true
  · rw [if_pos hany, List.filter_map]
    have hcong : t.rows.filter
        ((fun s => s.key == k) ∘ fun s => if s.key == k then { s with value := v } else s)
        = t.rows.filter (fun s => s.key == k) := by
      apply List.filter_congr
      intro a _
      have h1 : ((if (a.key == k) = true then { a with value := v } else a) : ConfigRow).key
          = a.key := upsert_map_key k v a
      simp only [Function.comp_apply, h1]
    rw [hcong, List.length_map]
    have hle := countKey_le_one t.rows k hw
    have hge : 1 ≤ (t.rows.filter (fun r => r.key == k)).length := by
      rw [List.any_eq_true] at hany
      obtain ⟨x, hx, hxk⟩ := hany
      have hmem : x ∈ t.rows.filter (fun r => r.key == k) := List.mem_filter.2 ⟨hx, hxk⟩
      exact List.length_pos.2 (List.ne_nil_of_mem hmem)
    omega
  · rw [if_neg hany]
    simp [List.filter_append, filter_key_nil k t.rows hany, List.filter_cons]

/-- After the upsert, every row holding the written key holds the written
value. -/
theorem upsert_value (t : ConfigTable) (k v : String) :
    ∀ r ∈ (upsertConfig t k v).rows, r.key = k → r.value = v := by
  unfold upsertConfig
  by_cases hany : t.rows.any (fun r => r.key == k) = true
  · rw [if_pos hany]
    intro r hr hrk
    rw [List.mem_map] at hr
    obtain ⟨x, hx, hfx⟩ := hr
    by_cases hxk : (x.key == k) = true
    · rw [← hfx, if_pos hxk]
    · exfalso
      rw [← hfx, if_neg hxk] at hrk
      exact hxk (by simp [hrk])
  · rw [if_neg hany]
    intro r hr hrk
    rw [List.mem_append] at hr
    rcases hr with hr | hr
    · exfalso
      simp only [List.any_eq_true, not_exists, not_and] at hany
      exact hany r hr (by simp [hrk])
    · rw [List.mem_singleton] at hr
      rw [hr]

/-- The upsert preserves the UNIQUE key constraint. -/
theorem upsert_wf (t : ConfigTable) (k v : String) (hw : ConfigWf t) :
    ConfigWf (upsertConfig t k v) := by
  unfold ConfigWf upsertConfig
  by_cases hany : t.rows.any (fun r => r.key == k) = true
  · rw [if_pos hany, List.pairwise_map]
    refine hw.imp ?_
    intro a b hab
    rw [upsert_map_key k v a, upsert_map_key k v b]
    exact hab
  · rw [if_neg hany, List.pairwise_append]
    refine ⟨hw, by simp, ?_⟩
    intro a ha b hb
    rw [List.mem_singleton] at hb
    subst hb
    simp only [List.any_eq_true, not_exists, not_and] at hany
    intro hak
    exact hany a ha (by simp [hak])

/-- C8: `setConfig` is an upsert keyed on the config key.  Starting from any
table satisfying the UNIQUE key constraint, `setConfig(k, v1)` then
`setConfig(k, v2)` leaves exactly one row for `k`, every row for `k` holds
`v2`, the constraint still holds, the second call resolves with the entry it
re-reads via `getConfig` after the write, and that entry is `(k, v2)`. -/
theorem C8_setConfig_upsert (t : ConfigTable) (k v1 v2 : String)
    (hw : ConfigWf t) :
    (((setConfig (setConfig t k v1).1 k v2).1.rows.filter (fun r => r.key == k)).length = 1)
    ∧ (∀ r ∈ (setConfig (setConfig t k v1).1 k v2).1.rows, r.key = k → r.value = v2)
    ∧ ConfigWf (setConfig (setConfig t k v1).1 k v2).1
    ∧ (setConfig (setConfig t k v1).1 k v2).2
        = getConfig (setConfig (setConfig t k v1).1 k v2).1 k
    ∧ (∃ r, getConfig (setConfig (setConfig t k v1).1 k v2).1 k = some r
        ∧ r.key = k ∧ r.value = v2) := by
  have hw1 : ConfigWf (upsertConfig t k v1) := upsert_wf t k v1 hw
  refine ⟨countKey_upsert _ k v2 hw1, upsert_value _ k v2, upsert_wf _ k v2 hw1, rfl,
    getConfig_upsert _ k v2⟩

/-- Witness for C8 at a concrete table: the empty config table, key
`"logsTTL"`, values `"1"` then `"2"`. -/
theorem C8_setConfig_upsert_witness :
    (((setConfig (setConfig ⟨[], 1⟩ "logsTTL" "1").1 "logsTTL" "2").1.rows.filter
        (fun r => r.key == "logsTTL")).length = 1)
    ∧ (∀ r ∈ (setConfig (setConfig ⟨[], 1⟩ "logsTTL" "1").1 "logsTTL" "2").1.rows,
        r.key = "logsTTL" → r.value = "2")
    ∧ ConfigWf (setConfig (setConfig ⟨[], 1⟩ "logsTTL" "1").1 "logsTTL" "2").1
    ∧ (setConfig (setConfig ⟨[], 1⟩ "logsTTL" "1").1 "logsTTL" "2").2
        = getConfig (setConfig (setConfig ⟨[], 1⟩ "logsTTL" "1").1 "logsTTL" "2").1 "logsTTL"
    ∧ (∃ r, getConfig (setConfig (setConfig ⟨[], 1⟩ "logsTTL" "1").1 "logsTTL" "2").1 "logsTTL"
        = some r ∧ r.key = "logsTTL" ∧ r.value = "2") :=
  C8_setConfig_upsert ⟨[], 1⟩ "logsTTL" "1" "2" (List.Pairwise.nil)

/-- C10: the notifications sweeper has no TTL key of its own — both TTL
resolutions read the `logsTTL` config entry, agree on every config state, and
writing `logsTTL` moves both identically: after `setConfig("logsTTL", v)`
each resolves to `parseInt(v, 10)` unless that is `NaN`, in which case each
falls back to its (equal) 30-day default. -/
theorem C10_notifications_share_logsTTL :
    (∀ cfg : ConfigTable,
        deleteExpiredNotificationItemsTTL cfg = deleteExpiredLogsTTL cfg)
    ∧ DEFAULT_NOTIFICATIONS_TTL = DEFAULT_LOGS_TTL
    ∧ (∀ (cfg : ConfigTable) (v : String),
        deleteExpiredNotificationItemsTTL (setConfig cfg "logsTTL" v).1
          = (parseIntJS v).getD DEFAULT_NOTIFICATIONS_TTL
        ∧ deleteExpiredLogsTTL (setConfig cfg "logsTTL" v).1
          = (parseIntJS v).getD DEFAULT_LOGS_TTL)
    ∧ (∀ (cfg : ConfigTable) (now : Int) (bodyFails : Bool) (ts cs : List Int),
        (deleteExpiredNotificationItems false bodyFails cfg now cs).ttl
          = (deleteExpiredLogs false bodyFails cfg now ts).ttl) := by
  have hagree : ∀ cfg : ConfigTable,
      deleteExpiredNotificationItemsTTL cfg = deleteExpiredLogsTTL cfg := by
    intro cfg
    unfold deleteExpiredNotificationItemsTTL deleteExpiredLogsTTL
      DEFAULT_NOTIFICATIONS_TTL DEFAULT_LOGS_TTL
    rfl
  refine ⟨hagree, rfl, ?_, ?_⟩
  · intro cfg v
    obtain ⟨r, hr, _hrk, hrv⟩ := getConfig_upsert cfg "logsTTL" v
    have hset : (setConfig cfg "logsTTL" v).1 = upsertConfig cfg "logsTTL" v := rfl
    constructor
    · unfold deleteExpiredNotificationItemsTTL
      rw [hset, hr, ← hrv]
      cases hp : parseIntJS r.value <;> simp [hp]
    · unfold deleteExpiredLogsTTL
      rw [hset, hr, ← hrv]
      cases hp : parseIntJS r.value <;> simp [hp]
  · intro cfg now bodyFails ts cs
    cases bodyFails
    · simp [deleteExpiredNotificationItems, deleteExpiredLogs, hagree cfg]
    · simp [deleteExpiredNotificationItems, deleteExpiredLogs]

/-- A decimal digit is not whitespace and not a sign character. -/
theorem digit_facts (c : Char) (h : c.isDigit = true) :
    c.isWhitespace = false ∧ c ≠ '-' ∧ c ≠ '+' := by
  simp only [Char.isDigit, Bool.and_eq_true, decide_eq_true_eq] at h
  have h1 : c ≠ ' ' := by rintro rfl; exact absurd h.1 (by decide)
  have h2 : c ≠ '\t' := by rintro rfl; exact absurd h.1 (by decide)
  have h3 : c ≠ '\x0d' := by rintro rfl; exact absurd h.1 (by decide)
  have h4 : c ≠ '\n' := by rintro rfl; exact absurd h.1 (by decide)
  have h5 : c ≠ '-' := by rintro rfl; exact absurd h.1 (by decide)
  have h6 : c ≠ '+' := by rintro rfl; exact absurd h.1 (by decide)
  refine ⟨?_, h5, h6⟩
  simp [Char.isWhitespace, h1, h2, h3, h4]

/-- On a nonempty all-digit string, `parseInt(s, 10)` succeeds and returns
exactly the value of those digits. -/
theorem parseIntJS_digits (s : String) (h : isNonNegIntStr s = true) :
    parseIntJS s = some (parseDigits s.data) := by
  unfold isNonNegIntStr at h
  rw [Bool.and_eq_true] at h
  obtain ⟨hne, hall⟩ := h
  cases hd : s.data with
  | nil => rw [hd] at hne; simp at hne
  | cons c cs =>
    rw [hd] at hall
    rw [List.all_eq_true] at hall
    have hc : c.isDigit = true := hall c (by simp)
    obtain ⟨hw, hminus, hplus⟩ := digit_facts c hc
    have hdrop : (c :: cs).dropWhile (fun ch => ch.isWhitespace) = c :: cs := by
      rw [List.dropWhile_cons, if_neg]
      simp [hw]
    have htake : (c :: cs).takeWhile (fun ch => ch.isDigit) = c :: cs :=
      List.takeWhile_eq_self_iff.mpr hall
    simp only [parseIntJS, hd, hdrop]
    rw [if_neg hminus, if_neg hplus]
    simp only [htake]
    simp

/-- C5 (amended): the sweep's TTL is the `parseInt(value, 10)` of the stored
`logsTTL` value whenever that parse is a number — in particular every valid
non-negative integer value is used as stored — and the 30-day default is used
exactly when the key is absent or the parse is `NaN`. -/
theorem C5_ttl_resolution_amended :
    ∀ cfg : ConfigTable,
      (getConfig cfg "logsTTL" = none → deleteExpiredLogsTTL cfg = DEFAULT_LOGS_TTL)
      ∧ (∀ item, getConfig cfg "logsTTL" = some item →
          (parseIntJS item.value = none → deleteExpiredLogsTTL cfg = DEFAULT_LOGS_TTL)
          ∧ (∀ z : Int, parseIntJS item.value = some z → deleteExpiredLogsTTL cfg = z)
          ∧ (isNonNegIntStr item.value = true →
              deleteExpiredLogsTTL cfg = (parseDigits item.value.data : Int))) := by
  intro cfg
  constructor
  · intro hnone
    unfold deleteExpiredLogsTTL
    rw [hnone]
  · intro item hsome
    refine ⟨?_, ?_, ?_⟩
    · intro hnan
      unfold deleteExpiredLogsTTL
      rw [hsome]
      simp [hnan]
    · intro z hz
      unfold deleteExpiredLogsTTL
      rw [hsome]
      simp [hz]
    · intro hvalid
      unfold deleteExpiredLogsTTL
      rw [hsome]
      simp [parseIntJS_digits item.value hvalid]

/-- Witness for C5's amended statement, one concrete config per branch:
absent key, non-numeric value, negative value, digit-string value. -/
theorem C5_ttl_resolution_amended_witness :
    deleteExpiredLogsTTL ⟨[], 1⟩ = DEFAULT_LOGS_TTL
    ∧ deleteExpiredLogsTTL ⟨[⟨1, "logsTTL", "abc"⟩], 2⟩ = DEFAULT_LOGS_TTL
    ∧ deleteExpiredLogsTTL ⟨[⟨1, "logsTTL", "-5"⟩], 2⟩ = (-5 : Int)
    ∧ deleteExpiredLogsTTL ⟨[⟨1, "logsTTL", "42"⟩], 2⟩ = ((parseDigits "42".data : Nat) : Int) := by
  refine ⟨?_, ?_, ?_, ?_⟩
  · exact (C5_ttl_resolution_amended ⟨[], 1⟩).1 (by decide)
  · exact (((C5_ttl_resolution_amended ⟨[⟨1, "logsTTL", "abc"⟩], 2⟩).2
      ⟨1, "logsTTL", "abc"⟩ (by decide)).1) (by decide)
  · exact (((C5_ttl_resolution_amended ⟨[⟨1, "logsTTL", "-5"⟩], 2⟩).2
      ⟨1, "logsTTL", "-5"⟩ (by decide)).2.1) (-5) (by decide)
  · exact (((C5_ttl_resolution_amended ⟨[⟨1, "logsTTL", "42"⟩], 2⟩).2
      ⟨1, "logsTTL", "42"⟩ (by decide)).2.2) (by decide)

/-- C5 counterexample: with `logsTTL` stored as `"-5"` — not a valid
non-negative integer — the sweep's TTL is `-5`, not the claimed 30-day
default, so the code diverges from the claim's fallback clause (the
spec-worded resolution `deleteExpiredLogsTTLSpec` does return the
default). -/
theorem C5_ttl_resolution_counterexample :
    isNonNegIntStr "-5" = false
    ∧ deleteExpiredLogsTTL ⟨[⟨1, "logsTTL", "-5"⟩], 2⟩ = (-5 : Int)
    ∧ deleteExpiredLogsTTL ⟨[⟨1, "logsTTL", "-5"⟩], 2⟩ ≠ DEFAULT_LOGS_TTL
    ∧ deleteExpiredLogsTTLSpec ⟨[⟨1, "logsTTL", "-5"⟩], 2⟩ = DEFAULT_LOGS_TTL
    ∧ deleteExpiredLogsTTL ⟨[⟨1, "logsTTL", "-5"⟩], 2⟩
        ≠ deleteExpiredLogsTTLSpec ⟨[⟨1, "logsTTL", "-5"⟩], 2⟩ := by
  refine ⟨by decide, by decide, by decide, by decide, by decide⟩

/-- A successful `getLogs` call returns the (possibly reversed) truncated
sort of the matching rows. -/
theorem getLogs_ok_elim {table : List LogRow} {f : LogFilters} {res : List LogRow}
    (h : getLogs table f = .ok res) :
    res = (if (getLogsOrder f).2 then
        (((table.filter (getLogsPred f)).insertionSort
          (ordRel (getLogsOrder f).1)).take (effectiveLimit f.limit)).reverse
      else
        ((table.filter (getLogsPred f)).insertionSort
          (ordRel (getLogsOrder f).1)).take (effectiveLimit f.limit)) := by
  unfold getLogs at h
  by_cases hc : (levelJsonBlockActive f && levelJsonBlockEmpty f) = true
  · rw [if_pos hc] at h
    exact absurd h (by simp)
  · rw [if_neg hc] at h
    have hinj := Except.ok.inj h
    rw [← hinj]

/-- Membership in a possibly reversed list. -/
theorem mem_of_mem_page {l : List LogRow} {b : Bool} {r : LogRow}
    (hr : r ∈ (if b then l.reverse else l)) : r ∈ l := by
  cases b <;> simpa using hr

/-- Every row a successful `getLogs` returns comes from the table and
satisfies the built WHERE predicate. -/
theorem getLogs_mem {table : List LogRow} {f : LogFilters} {res : List LogRow}
    (h : getLogs table f = .ok res) :
    ∀ r ∈ res, r ∈ table ∧ getLogsPred f r = true := by
  intro r hr
  rw [getLogs_ok_elim h] at hr
  have h1 : r ∈ ((table.filter (getLogsPred f)).insertionSort
      (ordRel (getLogsOrder f).1)).take (effectiveLimit f.limit) := mem_of_mem_page hr
  have h2 : r ∈ (table.filter (getLogsPred f)).insertionSort (ordRel (getLogsOrder f).1) :=
    (List.take_sublist _ _).subset h1
  have h3 : r ∈ table.filter (getLogsPred f) :=
    (List.perm_insertionSort (ordRel (getLogsOrder f).1) _).mem_iff.mp h2
  exact List.mem_filter.mp h3

/-- A successful `getLogs` never returns more rows than the effective
limit. -/
theorem getLogs_length {table : List LogRow} {f : LogFilters} {res : List LogRow}
    (h : getLogs table f = .ok res) :
    res.length ≤ effectiveLimit f.limit := by
  rw [getLogs_ok_elim h]
  cases hrev : (getLogsOrder f).2
  · simpa using Nat.le_trans (Nat.le_of_eq (List.length_take _ _)) (Nat.min_le_left _ _)
  · simpa using Nat.le_trans (Nat.le_of_eq (List.length_take _ _)) (Nat.min_le_left _ _)

/-- When no more rows match than the effective limit, a successful `getLogs`
returns every matching row. -/
theorem getLogs_complete {table : List LogRow} {f : LogFilters} {res : List LogRow}
    (h : getLogs table f = .ok res)
    (hsmall : (table.filter (getLogsPred f)).length ≤ effectiveLimit f.limit) :
    ∀ r ∈ table, getLogsPred f r = true → r ∈ res := by
  intro r hrt hpred
  have hperm := List.perm_insertionSort (ordRel (getLogsOrder f).1) (table.filter (getLogsPred f))
  have hlen : ((table.filter (getLogsPred f)).insertionSort
      (ordRel (getLogsOrder f).1)).length ≤ effectiveLimit f.limit := by
    rw [hperm.length_eq]; exact hsmall
  have htake : ((table.filter (getLogsPred f)).insertionSort
      (ordRel (getLogsOrder f).1)).take (effectiveLimit f.limit)
      = (table.filter (getLogsPred f)).insertionSort (ordRel (getLogsOrder f).1) :=
    List.take_of_length_le hlen
  have hmem : r ∈ (table.filter (getLogsPred f)).insertionSort (ordRel (getLogsOrder f).1) :=
    hperm.mem_iff.mpr (List.mem_filter.mpr ⟨hrt, hpred⟩)
  rw [getLogs_ok_elim h]
  cases hrev : (getLogsOrder f).2
  · simpa [htake] using hmem
  · simpa [htake] using hmem

/-- The truncated sort of a descending fetch, reversed, is ascending by
id. -/
theorem page_sorted_of_reverse (rows : List LogRow) (limit : Nat) :
    (((rows.insertionSort (ordRel .idDesc)).take limit).reverse).Pairwise
      (fun a b => a.id ≤ b.id) := by
  rw [List.pairwise_reverse]
  exact ((List.sorted_insertionSort (ordRel .idDesc) rows).sublist
    (List.take_sublist _ _))

/-- The truncated sort of an ascending fetch is ascending by id. -/
theorem page_sorted_of_asc (rows : List LogRow) (limit : Nat) :
    ((rows.insertionSort (ordRel .idAsc)).take limit).Pairwise
      (fun a b => a.id ≤ b.id) := by
  exact ((List.sorted_insertionSort (ordRel .idAsc) rows).sublist
    (List.take_sublist _ _))

/-- C6 (amended): a successful `getLogs` returns at most the effective limit
(100 when the caller gave none); when `lt_id` is set nonzero the page is the
reversal of a descending fetch of rows with `id < lt_id`, hence ascending by
id; when `gt_id` is set nonzero *and `lt_id` is not* (the `else if` chain
gives `lt_id` priority) the page is an ascending fetch of rows with
`id > gt_id` returned as-is; and when no more rows match than the limit the
page holds every matching row. -/
theorem C6_getLogs_pagination_amended :
    ∀ (table : List LogRow) (f : LogFilters) (res : List LogRow),
      getLogs table f = .ok res →
      (res.length ≤ effectiveLimit f.limit
        ∧ effectiveLimit none = 100)
      ∧ (∀ n, f.lt_id = some n → n ≠ 0 →
          (∀ r ∈ res, r ∈ table ∧ r.id < n)
          ∧ res.Pairwise (fun a b => a.id ≤ b.id))
      ∧ (∀ m, f.gt_id = some m → m ≠ 0 → truthyNat f.lt_id = false →
          (∀ r ∈ res, r ∈ table ∧ m < r.id)
          ∧ res.Pairwise (fun a b => a.id ≤ b.id))
      ∧ ((table.filter (getLogsPred f)).length ≤ effectiveLimit f.limit →
          ∀ r ∈ table, getLogsPred f r = true → r ∈ res) := by
  intro table f res h
  refine ⟨⟨getLogs_length h, rfl⟩, ?_, ?_, getLogs_complete h⟩
  · intro n hlt hn
    have htruthy : truthyNat f.lt_id = true := by simp [truthyNat, hlt, hn]
    have horder : getLogsOrder f = (.idDesc, true) := by
      unfold getLogsOrder
      rw [if_pos htruthy]
    constructor
    · intro r hr
      obtain ⟨hrt, hpred⟩ := getLogs_mem h r hr
      refine ⟨hrt, ?_⟩
      unfold getLogsPred at hpred
      simp only [Bool.and_eq_true] at hpred
      have hbound := hpred.2
      unfold getLogsBoundPred at hbound
      rw [if_pos htruthy] at hbound
      simpa [hlt] using hbound
    · rw [getLogs_ok_elim h, horder]
      simpa using page_sorted_of_reverse (table.filter (getLogsPred f)) (effectiveLimit f.limit)
  · intro m hgt hm hnlt
    have htruthy : truthyNat f.gt_id = true := by simp [truthyNat, hgt, hm]
    have horder : getLogsOrder f = (.idAsc, false) := by
      unfold getLogsOrder
      rw [if_neg (by simp [hnlt]), if_pos htruthy]
    constructor
    · intro r hr
      obtain ⟨hrt, hpred⟩ := getLogs_mem h r hr
      refine ⟨hrt, ?_⟩
      unfold getLogsPred at hpred
      simp only [Bool.and_eq_true] at hpred
      have hbound := hpred.2
      unfold getLogsBoundPred at hbound
      rw [if_neg (by simp [hnlt]), if_pos htruthy] at hbound
      simpa [hgt] using hbound
    · rw [getLogs_ok_elim h, horder]
      simpa using page_sorted_of_asc (table.filter (getLogsPred f)) (effectiveLimit f.limit)

/-- Witness for C6's amended statement: a two-row table paged once with
`lt_id = 2` and once with `gt_id = 5`. -/
theorem C6_getLogs_pagination_amended_witness :
    ((([⟨1, "h", 7, "s", "info", "m1", 10, 0⟩, ⟨6, "h", 7, "s", "info", "m2", 60, 0⟩] :
        List LogRow).filter (getLogsPred { lt_id := some 2 })).length
        ≤ effectiveLimit ({ lt_id := some 2 } : LogFilters).limit)
    ∧ (∀ r ∈ [(⟨1, "h", 7, "s", "info", "m1", 10, 0⟩ : LogRow)],
        r ∈ ([⟨1, "h", 7, "s", "info", "m1", 10, 0⟩, ⟨6, "h", 7, "s", "info", "m2", 60, 0⟩] :
          List LogRow) ∧ r.id < 2)
    ∧ (∀ r ∈ [(⟨6, "h", 7, "s", "info", "m2", 60, 0⟩ : LogRow)],
        r ∈ ([⟨1, "h", 7, "s", "info", "m1", 10, 0⟩, ⟨6, "h", 7, "s", "info", "m2", 60, 0⟩] :
          List LogRow) ∧ 5 < r.id) := by
  have h1 : getLogs
      [⟨1, "h", 7, "s", "info", "m1", 10, 0⟩, ⟨6, "h", 7, "s", "info", "m2", 60, 0⟩]
      { lt_id := some 2 } = .ok [⟨1, "h", 7, "s", "info", "m1", 10, 0⟩] := by rfl
  have h2 : getLogs
      [⟨1, "h", 7, "s", "info", "m1", 10, 0⟩, ⟨6, "h", 7, "s", "info", "m2", 60, 0⟩]
      { gt_id := some 5 } = .ok [⟨6, "h", 7, "s", "info", "m2", 60, 0⟩] := by rfl
  have t1 := C6_getLogs_pagination_amended _ _ _ h1
  have t2 := C6_getLogs_pagination_amended _ _ _ h2
  refine ⟨?_, ?_, ?_⟩
  · decide
  · exact ((t1.2.1 2 rfl (by decide)).1)
  · exact ((t2.2.2.1 5 rfl (by decide) (by decide)).1)

/-- C6 counterexample: the claim's `gt_id` clause fails when `lt_id` is also
set — the `else if` chain ignores `gt_id`, so the call returns the row with
`id = 1` (which is not `> 5`) and omits the row with `id = 6` (which is). -/
theorem C6_getLogs_pagination_counterexample :
    getLogs [⟨1, "h", 7, "s", "info", "m1", 10, 0⟩, ⟨6, "h", 7, "s", "info", "m2", 60, 0⟩]
        { lt_id := some 2, gt_id := some 5 }
      = .ok [⟨1, "h", 7, "s", "info", "m1", 10, 0⟩]
    ∧ ¬(5 < (1 : Nat))
    ∧ (⟨6, "h", 7, "s", "info", "m2", 60, 0⟩ : LogRow)
        ∉ [(⟨1, "h", 7, "s", "info", "m1", 10, 0⟩ : LogRow)] := by
  refine ⟨by rfl, by decide, by decide⟩

/-- A successful `searchLogs` call returns the (possibly reversed) truncated
sort of the matching rows together with the effective filter object. -/
theorem searchLogs_ok_elim {matchFn : List String → String → Bool} {terms : List String}
    {table : List LogRow} {f : LogFilters} {res : List LogRow} {eff : LogFilters}
    (h : searchLogs matchFn terms table f = .ok (res, eff)) :
    res = (if (searchLogsOrder f).2 then
        (((table.filter (searchLogsPred matchFn terms f)).insertionSort
          (ordRel (searchLogsOrder f).1)).take (effectiveLimit f.limit)).reverse
      else
        ((table.filter (searchLogsPred matchFn terms f)).insertionSort
          (ordRel (searchLogsOrder f).1)).take (effectiveLimit f.limit))
    ∧ eff = searchLogsEffectiveFilters f := by
  unfold searchLogs at h
  by_cases hc : (levelJsonBlockActive f && levelJsonBlockEmpty f) = true
  · rw [if_pos hc] at h
    exact absurd h (by simp)
  · rw [if_neg hc] at h
    have hinj := Except.ok.inj h
    have h1 := congrArg Prod.fst hinj
    have h2 := congrArg Prod.snd hinj
    exact ⟨h1.symm, h2.symm⟩

/-- Every row a successful `searchLogs` returns comes from the table and
satisfies the built WHERE predicate. -/
theorem searchLogs_mem {matchFn : List String → String → Bool} {terms : List String}
    {table : List LogRow} {f : LogFilters} {res : List LogRow} {eff : LogFilters}
    (h : searchLogs matchFn terms table f = .ok (res, eff)) :
    ∀ r ∈ res, r ∈ table ∧ searchLogsPred matchFn terms f r = true := by
  intro r hr
  rw [(searchLogs_ok_elim h).1] at hr
  have h1 : r ∈ ((table.filter (searchLogsPred matchFn terms f)).insertionSort
      (ordRel (searchLogsOrder f).1)).take (effectiveLimit f.limit) := mem_of_mem_page hr
  have h2 : r ∈ (table.filter (searchLogsPred matchFn terms f)).insertionSort
      (ordRel (searchLogsOrder f).1) := (List.take_sublist _ _).subset h1
  have h3 : r ∈ table.filter (searchLogsPred matchFn terms f) :=
    (List.perm_insertionSort (ordRel (searchLogsOrder f).1) _).mem_iff.mp h2
  exact List.mem_filter.mp h3

/-- C7: when `searchLogs` gets exactly one timestamp bound and no id bounds,
it synthesizes the missing bound at exactly 24 hours from the given one,
applies both bounds to the query (every returned row lies inside the window),
and reports both bounds in the returned effective filter set. -/
theorem C7_searchLogs_timestamp_window :
    ∀ (matchFn : List String → String → Bool) (terms : List String)
      (table : List LogRow) (f : LogFilters) (t : Int) (res : List LogRow)
      (eff : LogFilters),
      truthyNat f.lt_id = false → truthyNat f.gt_id = false →
      ((f.lte_timestamp = some t → f.gte_timestamp = none →
          searchLogs matchFn terms table f = .ok (res, eff) →
          eff.lte_timestamp = some t
          ∧ eff.gte_timestamp = some (t - 24 * 60 * 60 * 1000)
          ∧ ∀ r ∈ res, r.timestamp ≤ t ∧ t - 24 * 60 * 60 * 1000 ≤ r.timestamp)
        ∧ (f.gte_timestamp = some t → f.lte_timestamp = none →
          searchLogs matchFn terms table f = .ok (res, eff) →
          eff.gte_timestamp = some t
          ∧ eff.lte_timestamp = some (t + 24 * 60 * 60 * 1000)
          ∧ ∀ r ∈ res, t ≤ r.timestamp ∧ r.timestamp ≤ t + 24 * 60 * 60 * 1000)) := by
  intro matchFn terms table f t res eff _hlt _hgt
  constructor
  · intro hlte hgte h
    have heff := (searchLogs_ok_elim h).2
    refine ⟨?_, ?_, ?_⟩
    · rw [heff]; simp [searchLogsEffectiveFilters, hlte, hgte]
    · rw [heff]; simp [searchLogsEffectiveFilters, hlte, hgte]
    · intro r hr
      have hpred := (searchLogs_mem h r hr).2
      unfold searchLogsPred searchLogsBoundPred at hpred
      simp only [Bool.and_eq_true] at hpred
      obtain ⟨-, ⟨⟨⟨⟨-, -⟩, hlteC⟩, -⟩, hs1⟩, -⟩ := hpred
      rw [hlte] at hlteC
      rw [hlte, hgte] at hs1
      simp only [decide_eq_true_eq] at hlteC hs1
      exact ⟨hlteC, hs1⟩
  · intro hgte hlte h
    have heff := (searchLogs_ok_elim h).2
    refine ⟨?_, ?_, ?_⟩
    · rw [heff]; simp [searchLogsEffectiveFilters, hlte, hgte]
    · rw [heff]; simp [searchLogsEffectiveFilters, hlte, hgte]
    · intro r hr
      have hpred := (searchLogs_mem h r hr).2
      unfold searchLogsPred searchLogsBoundPred at hpred
      simp only [Bool.and_eq_true] at hpred
      obtain ⟨-, ⟨⟨⟨-, hgteC⟩, -⟩, hs2⟩⟩ := hpred
      rw [hgte] at hgteC
      rw [hlte, hgte] at hs2
      simp only [decide_eq_true_eq] at hgteC hs2
      exact ⟨hgteC, hs2⟩

/-- Witness for C7 at a one-row table: a lone `lte_timestamp = 100` gets
`gte_timestamp = 100 − 86400000`, a lone `gte_timestamp = 100` gets
`lte_timestamp = 100 + 86400000`, and the returned row lies in each
window. -/
theorem C7_searchLogs_timestamp_window_witness :
    ((({ lte_timestamp := some 100, gte_timestamp := some (100 - 24 * 60 * 60 * 1000), limit := some 100 } : LogFilters).lte_timestamp = some 100
      ∧ ({ lte_timestamp := some 100, gte_timestamp := some (100 - 24 * 60 * 60 * 1000), limit := some 100 } : LogFilters).gte_timestamp = some (100 - 24 * 60 * 60 * 1000)
      ∧ ∀ r ∈ [(⟨1, "h", 7, "s", "info", "m", 50, 0⟩ : LogRow)],
          r.timestamp ≤ 100 ∧ (100 : Int) - 24 * 60 * 60 * 1000 ≤ r.timestamp))
    ∧ (({ gte_timestamp := some 100, lte_timestamp := some (100 + 24 * 60 * 60 * 1000), limit := some 100 } : LogFilters).gte_timestamp = some 100
      ∧ ({ gte_timestamp := some 100, lte_timestamp := some (100 + 24 * 60 * 60 * 1000), limit := some 100 } : LogFilters).lte_timestamp = some (100 + 24 * 60 * 60 * 1000)
      ∧ ∀ r ∈ [(⟨1, "h", 7, "s", "info", "m", 150, 0⟩ : LogRow)],
          (100 : Int) ≤ r.timestamp ∧ r.timestamp ≤ 100 + 24 * 60 * 60 * 1000) := by
  constructor
  · exact (C7_searchLogs_timestamp_window (fun _ _ => true) []
      [⟨1, "h", 7, "s", "info", "m", 50, 0⟩] { lte_timestamp := some 100 } 100
      [⟨1, "h", 7, "s", "info", "m", 50, 0⟩]
      { lte_timestamp := some 100, gte_timestamp := some (100 - 24 * 60 * 60 * 1000), limit := some 100 }
      (by decide) (by decide)).1 rfl rfl (by rfl)
  · exact (C7_searchLogs_timestamp_window (fun _ _ => true) []
      [⟨1, "h", 7, "s", "info", "m", 150, 0⟩] { gte_timestamp := some 100 } 100
      [⟨1, "h", 7, "s", "info", "m", 150, 0⟩]
      { gte_timestamp := some 100, lte_timestamp := some (100 + 24 * 60 * 60 * 1000), limit := some 100 }
      (by decide) (by decide)).2 rfl rfl (by rfl)

end ErrsoleMySQL
